import Mathlib

/-!
Shallow embedding of `src/kudu/util/debug-util.cc` (remote thread stack-trace
collection): the `StackTrace` buffer helpers, the tracer/target signal
handshake (`HandleStackTraceSignal`, `RevokeSigData`, `TriggerAsync`,
`AwaitCollection`), the `CompletionFlag` timed wait, and the whole-process
snapshot. Machine pointers are modelled as `Nat`, thread ids as `Int`
(`queued_to_tid` is an atomic `int64_t` in the source). Constants that live in
the header `debug-util.h` (not part of the sources here) are modelled from the
spec and marked as such.
-/

namespace KuduDebug

/-- Modelled from the spec: `MAX_FRAMES` ("recommend 16"), the capacity of the
fixed `frames_` array declared in the missing header `debug-util.h`. -/
def kMaxFrames : Nat := 16

/-- Modelled from the spec: `kHexEntryLength`, the width of one rendered hex
address ("exactly 16 lowercase hex digits"); declared in the missing header. -/
def kHexEntryLength : Nat := 16

/-- The `StackTrace` buffer: the raw fixed array `frames_` (modelled as a total
function, entries beyond `num_frames_` hold arbitrary residue as in the
uninitialised C array) and `num_frames_`. -/
structure StackTrace where
  frames : Nat → Nat
  num_frames : Nat

/-- The defined prefix `frames_[0..num_frames_)` of a stack. -/
def definedRange (s : StackTrace) : List Nat :=
  (List.range s.num_frames).map s.frames

/-- A default-constructed `StackTrace` (`num_frames_ = 0`). -/
def emptyStackTrace : StackTrace :=
  { frames := fun _ => 0, num_frames := 0 }

/-- Modelled from the spec: `StackTrace::HasCollected()` from the missing
header returns whether `num_frames_ > 0`. -/
def HasCollected (s : StackTrace) : Bool :=
  decide (0 < s.num_frames)

/-- Semantics of `std::lexicographical_compare` on two explicit ranges:
true iff the first range is lexicographically smaller (a proper prefix of the
other range counts as smaller). -/
def lexLt : List Nat → List Nat → Bool
  | _, [] => false
  | [], _ :: _ => true
  | a :: as, b :: bs =>
    if a < b then true
    else if b < a then false
    else lexLt as bs

/-- `StackTrace::LessThan` exactly as in the source: it compares
`frames_[0..num_frames_)` with `s.frames_[0..num_frames_)` — the bound of the
second range is this object's `num_frames_`, not `s.num_frames_`. -/
def LessThan (s t : StackTrace) : Bool :=
  lexLt ((List.range s.num_frames).map s.frames)
        ((List.range s.num_frames).map t.frames)

/-- Modelled from the spec: `StackTrace::Equals` from the missing header:
prefix-length equal and element-wise equal on the defined prefix. -/
def Equals (s t : StackTrace) : Bool :=
  decide (s.num_frames = t.num_frames) && decide (definedRange s = definedRange t)

/-- Modelled from the spec: the flag bits accepted by `StringifyToHex`
(declared in the missing header): `NO_FIX_CALLER_ADDRESSES` disables the
"address − 1" correction, `HEX_0X_PREFIX` prepends `0x` to each address. -/
structure HexFlags where
  noFix : Bool
  hex0x : Bool

/-- Big-endian base-16 digits, fixed width `k` (lowercase, via
`Nat.digitChar`). -/
def hexDigits : Nat → Nat → List Char
  | 0, _ => []
  | k + 1, n => hexDigits k (n / 16) ++ [Nat.digitChar (n % 16)]

/-- Modelled from the spec: `FastHex64ToBuffer` (gutil, not in the sources)
renders exactly 16 lowercase hex digits, zero padded. -/
def fastHex64 (n : Nat) : List Char :=
  hexDigits 16 n

/-- The address actually printed for a frame in `StringifyToHex`:
`if (addr > 0 && !(flags & NO_FIX_CALLER_ADDRESSES)) addr--;`. -/
def printedAddr (fl : HexFlags) (addr : Nat) : Nat :=
  if 0 < addr ∧ fl.noFix = false then addr - 1 else addr

/-- The bytes one loop iteration of `StringifyToHex` appends for frame number
`i` holding address `f`: optional separating space, optional `0x`, then the 16
hex digits. -/
def stringifyChunk (fl : HexFlags) (i : Nat) (f : Nat) : List Char :=
  (if i ≠ 0 then [' '] else []) ++
    (if fl.hex0x then ['0', 'x'] else []) ++
    fastHex64 (printedAddr fl f)

/-- The loop of `StackTrace::StringifyToHex`: `dst` is the current write
offset into the buffer, and the loop body runs only while
`dst < limit = size - kHexEntryLength - 2` (computed over `Int`, as the C
pointer comparison). The returned list is everything written before the final
NUL; the NUL is then stored at offset `length`. -/
def stringifyLoop (fl : HexFlags) (size : Nat) : List Nat → Nat → Nat → List Char
  | [], _, _ => []
  | f :: rest, i, dst =>
    if (dst : Int) < (size : Int) - (kHexEntryLength : Int) - 2 then
      stringifyChunk fl i f ++
        stringifyLoop fl size rest (i + 1) (dst + (stringifyChunk fl i f).length)
    else []

/-- `StackTrace::StringifyToHex(buf, size, flags)`: the characters written
into `buf` before the terminating NUL. -/
def StringifyToHex (st : StackTrace) (size : Nat) (fl : HexFlags) : List Char :=
  stringifyLoop fl size (definedRange st) 0 0

/-- Value of a lowercase hex digit character (a parse helper for the
round-trip property; not part of the source). -/
def hexVal (c : Char) : Nat :=
  if '0' ≤ c ∧ c ≤ '9' then c.toNat - '0'.toNat
  else if 'a' ≤ c ∧ c ≤ 'f' then c.toNat - 'a'.toNat + 10
  else 0

/-- Parse a string of hex digits (a parse helper for the round-trip
property; not part of the source). -/
def parseHex (cs : List Char) : Nat :=
  cs.foldl (fun acc c => 16 * acc + hexVal c) 0

/-- Modelled from the spec: `kPrintfPointerFieldWidth = 2 + 2 * sizeof(void*)`
on a 64-bit target. -/
def kPrintfPointerFieldWidth : Nat := 18

/-- Rendering of `%*p` for a nonnull pointer: `0x` plus minimal lowercase hex,
left padded with spaces to the field width. -/
def ptrField (n : Nat) : String :=
  let s := "0x" ++ (Nat.toDigits 16 n).asString
  ⟨List.replicate (kPrintfPointerFieldWidth - s.length) ' '⟩ ++ s

/-- One line of `StackTrace::Symbolize` for program counter `pc`, given the
symbolization collaborator `symb`: the symbol is resolved at `pc - 1` when
`pc` is nonzero, and is `(unknown)` when `pc` is zero or resolution fails. -/
def symbolizeLine (symb : Nat → Option String) (pc : Nat) : String :=
  "    @ " ++ ptrField pc ++ "  " ++
    (if pc ≠ 0 then (symb (pc - 1)).getD "(unknown)" else "(unknown)") ++ "\n"

/-- `StackTrace::Symbolize`, parameterised by the symbolization
collaborator. -/
def Symbolize (symb : Nat → Option String) (st : StackTrace) : String :=
  String.join ((definedRange st).map (symbolizeLine symb))

/-- `StackTrace::Collect`, parameterised by the unwind-safety oracle, the
address of the sentinel function `CouldNotCollectStackTraceBecauseInsideLibDl`,
and the result the local unwinder would produce in the safe case. In the
unsafe case the source stores `f_ptr + 1` into `frames_[0]` and sets
`num_frames_ = 1`, leaving the rest of the array as it was. -/
def Collect (safeToUnwind : Bool) (sentinelFnAddr : Nat) (unwindResult : StackTrace)
    (st : StackTrace) : StackTrace :=
  if safeToUnwind = false then
    { frames := Function.update st.frames 0 (sentinelFnAddr + 1), num_frames := 1 }
  else unwindResult

/-- The `Status` values produced by this translation unit (domain error
kinds of the spec). -/
inductive Status where
  | ok
  | notSupported (msg : String)
  | notFound (msg : String)
  | timedOut (msg : String)
  | incomplete (msg : String)
  | ioError (msg : String)
  | invalidArgument (msg : String)
deriving DecidableEq

/-- `SignalData::kNotInUse`. -/
def kNotInUse : Int := 0

/-- `SignalData::kDumpStarted`. -/
def kDumpStarted : Int := -1

/-- The shared `SignalData` block: the destination stack buffer, the atomic
`queued_to_tid` word, and the `result_ready` completion flag. The `stack`
field here holds the contents of the caller's destination buffer. -/
structure SignalData where
  queued_to_tid : Int
  result_ready : Bool
  stack : StackTrace

/-- Which externally visible effects a run of the signal handler had on the
shared block: whether it wrote the caller's stack buffer and whether it
signalled `result_ready`. -/
structure HandlerEffects where
  wroteStack : Bool
  signaledResultReady : Bool

/-- `HandleStackTraceSignal`, run by the thread with id `my_tid` that received
the signal, where `collected` is what `stack->Collect(1)` would capture in
that thread: CAS `queued_to_tid : my_tid → kDumpStarted`; on success collect
into the caller's buffer and signal `result_ready`; on failure return
immediately with no effect. -/
def HandleStackTraceSignal (my_tid : Int) (collected : StackTrace)
    (sd : SignalData) : SignalData × HandlerEffects :=
  if sd.queued_to_tid = my_tid then
    ({ queued_to_tid := kDumpStarted, result_ready := true, stack := collected },
      ⟨true, true⟩)
  else
    (sd, ⟨false, false⟩)

/-- What `RevokeSigData` did with the block besides the exchange. -/
inductive RevokeAction where
  /-- The block was intentionally leaked (never freed): the signal may still
  be pending. -/
  | leakBlock
  /-- The tracer waited on `result_ready` with no deadline
  (`WaitUntil(MonoTime::Max())`), then freed the block. -/
  | waitThenFree
  /-- `CHECK_EQ(old_val, kDumpStarted)` failed: the program aborts. -/
  | abortProgram
deriving DecidableEq

/-- `StackTraceCollector::RevokeSigData` for a collector holding target id
`tid`: exchange `queued_to_tid ← kNotInUse` obtaining `old`, then leak and
report timed-out if `old == tid_`, or wait unconditionally, free and report
completed if `old == kDumpStarted`, or abort. Returns (returned boolean,
action taken) and the block state after the exchange. -/
def RevokeSigData (sd : SignalData) (tid : Int) : (Bool × RevokeAction) × SignalData :=
  let old := sd.queued_to_tid
  let sd' : SignalData := { sd with queued_to_tid := kNotInUse }
  if old = tid then ((false, .leakBlock), sd')
  else if old = kDumpStarted then ((true, .waitThenFree), sd')
  else ((false, .abortProgram), sd')

/-- `StackTraceCollector::TriggerAsync(tid, stack)`, parameterised by whether
the process-wide signal handler could be installed and whether the
`rt_tgsigqueueinfo` delivery succeeds. On success it returns the allocated
`SignalData` block (with `queued_to_tid = tid` and the caller's empty
destination buffer) and the stored `tid_`. -/
def TriggerAsync (handlerInstalled : Bool) (deliveryOk : Bool) (tid : Int)
    (dest : StackTrace) : Except Status (SignalData × Int) :=
  if handlerInstalled = false then
    .error (.notSupported "unable to take thread stack: signal handler unavailable")
  else
    let data : SignalData := { queued_to_tid := tid, result_ready := false, stack := dest }
    if deliveryOk = false then
      .error (.notFound "unable to deliver signal: process may have exited")
    else
      .ok (data, tid)

/-- `StackTraceCollector::AwaitCollection(deadline)`: the result of the timed
wait on `result_ready` is passed in as `waitResult` (the source wraps it in
`ignore_result`), `sd` is the state of the shared block when the wait
returned. Revocation alone determines the status. Returns the status, the
block state after revocation, and the revocation action. -/
def AwaitCollection (_waitResult : Bool) (sd : SignalData) (tid : Int) :
    Status × SignalData × RevokeAction :=
  let r := RevokeSigData sd tid
  ((if r.1.1 = true then Status.ok
    else Status.timedOut "thread did not respond: maybe it is blocking signals"),
   r.2, r.1.2)

/-- One run of `CompletionFlag::WaitUntil`'s loop, over a deterministic trace:
`flagAt t` is the value of `complete_` at monotonic instant `t`, `now` is the
current clock value, and `wakes` lists the instants at which the futex wait
returns (by wake or by timeout). Returns the boolean result together with the
instants at which the flag was read. While `now < deadline` the loop waits,
re-reads the flag (returning true if it is set), and refreshes the clock;
once `now ≥ deadline` it returns a final fresh read of the flag. -/
def waitLoop (flagAt : Nat → Bool) (deadline : Nat) : Nat → List Nat → Bool × List Nat
  | now, [] =>
    (flagAt now, [now])
  | now, t :: rest =>
    if now < deadline then
      if flagAt t then (true, [t])
      else
        let r := waitLoop flagAt deadline (max now t) rest
        (r.1, t :: r.2)
    else (flagAt now, [now])

/-- `CompletionFlag::WaitUntil(deadline)` over a deterministic trace: an
initial read of `complete_` at entry instant `t0` returns true immediately if
the flag is already set; otherwise the wait loop runs. -/
def WaitUntil (flagAt : Nat → Bool) (t0 : Nat) (deadline : Nat) (wakes : List Nat) :
    Bool × List Nat :=
  if flagAt t0 then (true, [t0])
  else
    let r := waitLoop flagAt deadline t0 wakes
    (r.1, t0 :: r.2)

/-- Observable behaviour of one target thread during a snapshot: its id,
whether signal delivery to it succeeds, whether its handler runs (observes the
signal) before the tracer's revocation, and the stack its handler would
collect. -/
structure ThreadObs where
  tid : Int
  deliveryOk : Bool
  handlerRan : Bool
  collected : StackTrace

/-- One entry of `StackTraceSnapshot`: thread id, per-thread status and the
thread's destination stack buffer (the `thread_name` field plays no role in
the claims and is omitted). -/
structure ThreadInfo where
  tid : Int
  status : Status
  stack : StackTrace

/-- The per-thread part of `SnapshotAllStacks`: trigger a collection into a
default-constructed buffer, let the target's handler run (or not), then
`AwaitCollection`. The entry records the final status and buffer. -/
def runOneThread (handlerInstalled : Bool) (o : ThreadObs) : ThreadInfo :=
  match TriggerAsync handlerInstalled o.deliveryOk o.tid emptyStackTrace with
  | .error st => { tid := o.tid, status := st, stack := emptyStackTrace }
  | .ok (sd0, storedTid) =>
    let sd1 := if o.handlerRan then (HandleStackTraceSignal o.tid o.collected sd0).1 else sd0
    let r := AwaitCollection false sd1 storedTid
    { tid := o.tid, status := r.1, stack := r.2.1.stack }

/-- `StackTraceSnapshot::SnapshotAllStacks`, over the observable behaviour of
the environment: refuse when a debugger is attached, fail when thread
enumeration fails, otherwise trigger and await every thread, count the failed
entries, sort the entries by `LessThan` on their stacks, and return OK.
Returns (overall status, entries, `num_failed_`). -/
def SnapshotAllStacks (debuggerAttached : Bool) (listOk : Bool)
    (handlerInstalled : Bool) (obs : List ThreadObs) :
    Status × List ThreadInfo × Nat :=
  if debuggerAttached then
    (.incomplete "not collecting stack trace since debugger or strace is attached", [], 0)
  else if listOk = false then
    (.ioError "could not list threads", [], 0)
  else
    let infos := obs.map (runOneThread handlerInstalled)
    let numFailed := infos.countP (fun e => decide (¬ e.status = Status.ok))
    (.ok, infos.mergeSort (fun a b => ! LessThan b.stack a.stack), numFailed)

/-- Helper: the block state after `RevokeSigData` always has
`queued_to_tid = kNotInUse` (the exchange happens before any branching). -/
theorem revokeSigData_snd (sd : SignalData) (tid : Int) :
    (RevokeSigData sd tid).2 = { sd with queued_to_tid := kNotInUse } := by
  unfold RevokeSigData
  dsimp only
  split
  · rfl
  · split <;> rfl

/-- C1: once the tracer has revoked (transitioning `queued_to_tid` out of the
target's tid and back to `kNotInUse`), any subsequent run of the signal
handler in a real thread (positive tid) fails its CAS and returns without
writing the caller's `StackTrace` and without signalling `result_ready`. -/
theorem c1_handler_noop_after_revocation
    (sd : SignalData) (tid my_tid : Int) (collected : StackTrace)
    (hpos : 0 < my_tid) :
    HandleStackTraceSignal my_tid collected (RevokeSigData sd tid).2
      = ((RevokeSigData sd tid).2, ⟨false, false⟩) := by
  rw [revokeSigData_snd]
  unfold HandleStackTraceSignal
  dsimp only
  rw [if_neg]
  intro h
  unfold kNotInUse at h
  omega

theorem c1_witness :
    HandleStackTraceSignal 7 emptyStackTrace
        (RevokeSigData { queued_to_tid := 5, result_ready := false,
                         stack := emptyStackTrace } 5).2
      = ((RevokeSigData { queued_to_tid := 5, result_ready := false,
                          stack := emptyStackTrace } 5).2, ⟨false, false⟩) :=
  c1_handler_noop_after_revocation _ 5 7 emptyStackTrace (by decide)

/-- C2: `RevokeSigData` exchanges `queued_to_tid` to `kNotInUse`; if the old
value is the target tid it leaks the block and reports timed-out (`false`);
if the old value is `kDumpStarted` it waits on `result_ready` with no deadline,
frees the block, and reports completed (`true`); any other old value aborts
the program. -/
theorem c2_revoke_characterisation (sd : SignalData) (tid : Int) (hpos : 0 < tid) :
    (RevokeSigData sd tid).2.queued_to_tid = kNotInUse
    ∧ (sd.queued_to_tid = tid →
        (RevokeSigData sd tid).1 = (false, RevokeAction.leakBlock))
    ∧ (sd.queued_to_tid = kDumpStarted →
        (RevokeSigData sd tid).1 = (true, RevokeAction.waitThenFree))
    ∧ (sd.queued_to_tid ≠ tid → sd.queued_to_tid ≠ kDumpStarted →
        (RevokeSigData sd tid).1 = (false, RevokeAction.abortProgram)) := by
  refine ⟨by rw [revokeSigData_snd], ?_, ?_, ?_⟩
  · intro h
    unfold RevokeSigData
    dsimp only
    rw [if_pos h]
  · intro h
    unfold RevokeSigData
    dsimp only
    rw [if_neg, if_pos h]
    rw [h]
    unfold kDumpStarted
    omega
  · intro h1 h2
    unfold RevokeSigData
    dsimp only
    rw [if_neg h1, if_neg h2]

theorem c2_witness :
    (RevokeSigData { queued_to_tid := 5, result_ready := false,
                     stack := emptyStackTrace } 5).1
      = (false, RevokeAction.leakBlock) :=
  (c2_revoke_characterisation
    { queued_to_tid := 5, result_ready := false, stack := emptyStackTrace } 5
    (by decide)).2.1 rfl

/-- C3: `AwaitCollection` ignores the return value of the deadline-bounded
wait on `result_ready`; it returns OK exactly when `RevokeSigData` reports
completed — in particular whenever the handler had already started the dump
(`queued_to_tid = kDumpStarted`), even if the timed wait expired — and
otherwise returns `TimedOut("thread did not respond: maybe it is blocking
signals")`. -/
theorem c3_await_collection (r : Bool) (sd : SignalData) (tid : Int)
    (hpos : 0 < tid) :
    (∀ r', AwaitCollection r sd tid = AwaitCollection r' sd tid)
    ∧ ((AwaitCollection r sd tid).1 = Status.ok ↔ (RevokeSigData sd tid).1.1 = true)
    ∧ ((RevokeSigData sd tid).1.1 = false →
        (AwaitCollection r sd tid).1
          = Status.timedOut "thread did not respond: maybe it is blocking signals")
    ∧ (sd.queued_to_tid = kDumpStarted → (AwaitCollection r sd tid).1 = Status.ok) := by
  refine ⟨fun _ => rfl, ?_, ?_, ?_⟩
  · unfold AwaitCollection
    dsimp only
    split
    · simp_all
    · simp_all
  · intro h
    unfold AwaitCollection
    dsimp only
    rw [if_neg]
    simp [h]
  · intro h
    unfold AwaitCollection
    dsimp only
    rw [if_pos]
    unfold RevokeSigData
    dsimp only
    rw [if_neg, if_pos h]
    rw [h]
    unfold kDumpStarted
    omega

theorem c3_witness :
    (AwaitCollection false
        { queued_to_tid := kDumpStarted, result_ready := true,
          stack := emptyStackTrace } 5).1 = Status.ok :=
  (c3_await_collection false
    { queued_to_tid := kDumpStarted, result_ready := true, stack := emptyStackTrace }
    5 (by decide)).2.2.2 rfl

/-- C10: a successful `TriggerAsync(tid, ...)` publishes a block whose
`queued_to_tid` is exactly the target tid it stored, so the handler's CAS —
whose expected value is the receiving thread's own id — fails in any thread
with a different id, and such a delayed or misdirected signal is ignored:
the handler neither writes the stack buffer nor signals `result_ready`. -/
theorem c10_trigger_cas_guard (installed delivered : Bool) (tid : Int)
    (dest : StackTrace) (out : SignalData × Int)
    (h : TriggerAsync installed delivered tid dest = .ok out) :
    out.1.queued_to_tid = tid ∧ out.2 = tid
    ∧ ∀ my_tid, my_tid ≠ tid → ∀ collected,
        HandleStackTraceSignal my_tid collected out.1 = (out.1, ⟨false, false⟩) := by
  unfold TriggerAsync at h
  split at h
  · exact absurd h (by simp)
  · dsimp only at h
    split at h
    · exact absurd h (by simp)
    · have hout : out = ({ queued_to_tid := tid, result_ready := false, stack := dest }, tid) := by
        cases h
        rfl
      subst hout
      refine ⟨rfl, rfl, ?_⟩
      intro my_tid hne collected
      unfold HandleStackTraceSignal
      dsimp only
      rw [if_neg]
      intro hc
      exact hne hc.symm

theorem c10_witness :
    HandleStackTraceSignal 8 emptyStackTrace
        { queued_to_tid := 7, result_ready := false, stack := emptyStackTrace }
      = ({ queued_to_tid := 7, result_ready := false, stack := emptyStackTrace },
         ⟨false, false⟩) :=
  (c10_trigger_cas_guard true true 7 emptyStackTrace
    ({ queued_to_tid := 7, result_ready := false, stack := emptyStackTrace }, 7)
    rfl).2.2 8 (by decide) emptyStackTrace

/-- Helper: the loop of `WaitUntil` returns true exactly when one of the flag
reads it performs observes the flag set. -/
theorem waitLoop_true_iff_read (flagAt : Nat → Bool) (deadline : Nat) :
    ∀ (wakes : List Nat) (now : Nat),
      (waitLoop flagAt deadline now wakes).1 = true ↔
        ∃ t ∈ (waitLoop flagAt deadline now wakes).2, flagAt t = true := by
  intro wakes
  induction wakes with
  | nil =>
    intro now
    simp [waitLoop]
  | cons t rest ih =>
    intro now
    unfold waitLoop
    by_cases hlt : now < deadline
    · rw [if_pos hlt]
      by_cases hf : flagAt t
      · simp [hf]
      · simp only [Bool.not_eq_true] at hf
        have hcond : ¬ (flagAt t = true) := by simp [hf]
        rw [if_neg hcond]
        dsimp only
        rw [ih (max now t)]
        simp [hf]
    · rw [if_neg hlt]
      simp

/-- Helper: if the flag is one-shot (monotone in time), is set at some instant
before the deadline, and the futex eventually reports a wake at or after the
deadline, then the loop of `WaitUntil` returns true. -/
theorem waitLoop_true_of_set_before (flagAt : Nat → Bool) (deadline : Nat)
    (hmono : ∀ a b, a ≤ b → flagAt a = true → flagAt b = true) :
    ∀ (wakes : List Nat) (now : Nat),
      (∃ w ∈ wakes, deadline ≤ w) →
      (∃ t, t < deadline ∧ flagAt t = true) →
      (waitLoop flagAt deadline now wakes).1 = true := by
  intro wakes
  induction wakes with
  | nil =>
    intro now hw _
    exact absurd hw (by simp)
  | cons t rest ih =>
    intro now hw hset
    obtain ⟨t', ht', hft'⟩ := hset
    unfold waitLoop
    by_cases hlt : now < deadline
    · rw [if_pos hlt]
      by_cases hf : flagAt t
      · simp [hf]
      · simp only [Bool.not_eq_true] at hf
        have hcond : ¬ (flagAt t = true) := by simp [hf]
        rw [if_neg hcond]
        dsimp only
        obtain ⟨w, hwmem, hwge⟩ := hw
        rcases List.mem_cons.mp hwmem with hwt | hwrest
        · subst hwt
          have : flagAt w = true :=
            hmono t' w (le_trans (le_of_lt ht') hwge) hft'
          rw [this] at hf
          exact absurd hf (by simp)
        · exact ih (max now t) ⟨w, hwrest, hwge⟩ ⟨t', ht', hft'⟩
    · rw [if_neg hlt]
      dsimp only
      exact hmono t' now (le_trans (le_of_lt ht') (Nat.le_of_not_lt hlt)) hft'

/-- C6 (amended): `WaitUntil` returns true immediately (performing only the
entry read) when the flag is already set at entry; in general it returns true
exactly when one of the flag reads it performs observes 1; and any setting of
the flag strictly before the deadline guarantees a true result, provided the
flag is one-shot and the futex eventually wakes at or after the deadline. The
converse of the claim fails: a read made at or after the deadline (a late wake
or the final re-check) may also observe 1 and yield true. -/
theorem c6_wait_until_reads (flagAt : Nat → Bool) (t0 deadline : Nat)
    (wakes : List Nat)
    (hmono : ∀ a b, a ≤ b → flagAt a = true → flagAt b = true)
    (hterm : ∃ w ∈ wakes, deadline ≤ w) :
    (flagAt t0 = true → WaitUntil flagAt t0 deadline wakes = (true, [t0]))
    ∧ ((WaitUntil flagAt t0 deadline wakes).1 = true ↔
        ∃ t ∈ (WaitUntil flagAt t0 deadline wakes).2, flagAt t = true)
    ∧ ((∃ t, t < deadline ∧ flagAt t = true) →
        (WaitUntil flagAt t0 deadline wakes).1 = true) := by
  refine ⟨?_, ?_, ?_⟩
  · intro h
    unfold WaitUntil
    rw [if_pos h]
  · unfold WaitUntil
    by_cases h0 : flagAt t0
    · simp [h0]
    · simp only [Bool.not_eq_true] at h0
      have hcond : ¬ (flagAt t0 = true) := by simp [h0]
      rw [if_neg hcond]
      dsimp only
      rw [waitLoop_true_iff_read]
      simp [h0]
  · intro hset
    unfold WaitUntil
    by_cases h0 : flagAt t0
    · simp [h0]
    · simp only [Bool.not_eq_true] at h0
      have hcond : ¬ (flagAt t0 = true) := by simp [h0]
      rw [if_neg hcond]
      exact waitLoop_true_of_set_before flagAt deadline hmono wakes t0 hterm hset

theorem c6_witness :
    (WaitUntil (fun t => decide (1 ≤ t)) 0 4 [1, 4]).1 = true :=
  (c6_wait_until_reads (fun t => decide (1 ≤ t)) 0 4 [1, 4]
    (by intro a b hab ha; simp_all; omega)
    ⟨4, by decide, by decide⟩).2.2 ⟨1, by decide, by decide⟩

/-- C6 (counterexample to the claim as stated): with the flag first set at
instant 3, a deadline of 2, entry at instant 0 and a (late) futex wake at
instant 3, `WaitUntil` returns true although the flag was never 1 at any
instant before the deadline. -/
theorem c6_counterexample :
    (WaitUntil (fun t => decide (3 ≤ t)) 0 2 [3]).1 = true
    ∧ ∀ t, t < 2 → (fun t => decide (3 ≤ t)) t = false := by
  decide

/-- C5 (evaluation at the failing input): a stack whose defined prefix `[5]`
is a proper prefix of the other's defined prefix `[5, 7]` does NOT compare
smaller under the source's `LessThan`, because the source bounds the other
stack's range by this stack's own `num_frames_`; the comparison the spec
describes (lexicographic over the two defined prefixes) would return true. -/
theorem c5_less_than_proper_prefix_fails :
    definedRange { frames := fun _ => 5, num_frames := 1 } = [5]
    ∧ definedRange { frames := fun i => if i = 0 then 5 else 7, num_frames := 2 } = [5, 7]
    ∧ LessThan { frames := fun _ => 5, num_frames := 1 }
        { frames := fun i => if i = 0 then 5 else 7, num_frames := 2 } = false
    ∧ lexLt (definedRange { frames := fun _ => 5, num_frames := 1 })
        (definedRange { frames := fun i => if i = 0 then 5 else 7, num_frames := 2 })
        = true := by
  decide

/-- C7: when the unwind-safety oracle returns false, `Collect` produces
exactly one synthetic frame holding the sentinel function's address plus one,
and symbolization of that stack — which resolves the frame minus one, i.e. the
sentinel itself — is the single readable marker line. -/
theorem c7_collect_unsafe_sentinel (st unwindResult : StackTrace)
    (sentinelFnAddr : Nat) (symb : Nat → Option String) (marker : String)
    (hsymb : symb sentinelFnAddr = some marker) :
    (Collect false sentinelFnAddr unwindResult st).num_frames = 1
    ∧ definedRange (Collect false sentinelFnAddr unwindResult st)
        = [sentinelFnAddr + 1]
    ∧ Symbolize symb (Collect false sentinelFnAddr unwindResult st)
        = "    @ " ++ ptrField (sentinelFnAddr + 1) ++ "  " ++ marker ++ "\n" := by
  refine ⟨rfl, ?_, ?_⟩
  · show List.map (Function.update st.frames 0 (sentinelFnAddr + 1)) (List.range 1)
        = [sentinelFnAddr + 1]
    simp [List.range_succ]
  · have hline : symbolizeLine symb (sentinelFnAddr + 1)
        = "    @ " ++ ptrField (sentinelFnAddr + 1) ++ "  " ++ marker ++ "\n" := by
      unfold symbolizeLine
      rw [if_pos (by omega), Nat.add_sub_cancel, hsymb]
      rfl
    show String.join (((List.range 1).map
        (Function.update st.frames 0 (sentinelFnAddr + 1))).map (symbolizeLine symb))
        = "    @ " ++ ptrField (sentinelFnAddr + 1) ++ "  " ++ marker ++ "\n"
    simp [List.range_succ, String.join, hline]

/-- Helper: `hexDigits` has exactly the requested width. -/
theorem hexDigits_length (k : Nat) : ∀ n, (hexDigits k n).length = k := by
  induction k with
  | zero => intro n; rfl
  | succ k ih =>
    intro n
    unfold hexDigits
    rw [List.length_append, ih]
    simp

/-- Helper: without `HEX_0X_PREFIX` a loop iteration appends at most 17
bytes (an optional space plus 16 hex digits). -/
theorem stringifyChunk_length_le (fl : HexFlags) (hfl : fl.hex0x = false)
    (i f : Nat) : (stringifyChunk fl i f).length ≤ 17 := by
  unfold stringifyChunk fastHex64
  rw [hfl]
  simp [hexDigits_length]
  split <;> simp

/-- Helper: without `HEX_0X_PREFIX`, whatever the starting offset, the loop of
`StringifyToHex` either writes nothing or ends at offset at most `size - 2`,
because each iteration starts only below `size - 18` and appends at most 17
bytes. -/
theorem stringifyLoop_length_bound (fl : HexFlags) (hfl : fl.hex0x = false)
    (size : Nat) :
    ∀ (fr : List Nat) (i dst : Nat),
      (stringifyLoop fl size fr i dst).length = 0
      ∨ dst + (stringifyLoop fl size fr i dst).length ≤ size - 2 := by
  intro fr
  induction fr with
  | nil => intro i dst; left; rfl
  | cons f rest ih =>
    intro i dst
    unfold stringifyLoop
    split
    · next hc =>
      right
      simp only [kHexEntryLength] at hc
      have hdst : dst + 19 ≤ size := by omega
      have hck : (stringifyChunk fl i f).length ≤ 17 :=
        stringifyChunk_length_le fl hfl i f
      rcases ih (i + 1) (dst + (stringifyChunk fl i f).length) with h0 | hle
      · rw [List.length_append, h0]
        omega
      · rw [List.length_append]
        omega
    · left; rfl

/-- C4 (amended): for every stack state, every buffer of positive size, and
every flag combination with `HEX_0X_PREFIX` unset, `StringifyToHex` writes a
NUL-terminated string and never writes beyond the buffer: at most `size - 1`
bytes precede the terminating NUL. (With `HEX_0X_PREFIX` set the reservation
check does not account for the two `0x` bytes and the NUL can land at offset
`size`, one byte beyond the buffer.) -/
theorem c4_stringify_bounded (st : StackTrace) (size : Nat) (fl : HexFlags)
    (hfl : fl.hex0x = false) (hsz : 1 ≤ size) :
    (StringifyToHex st size fl).length + 1 ≤ size := by
  unfold StringifyToHex
  rcases stringifyLoop_length_bound fl hfl size (definedRange st) 0 0 with h0 | hle
  · omega
  · omega

theorem c4_witness :
    (StringifyToHex { frames := fun _ => 258, num_frames := 1 } 20
        { noFix := false, hex0x := false }).length + 1 ≤ 20 :=
  c4_stringify_bounded { frames := fun _ => 258, num_frames := 1 } 20
    { noFix := false, hex0x := false } rfl (by decide)

/-- C4 (counterexample to the claim as stated): with `HEX_0X_PREFIX` set, two
frames and a buffer of 37 bytes, the loop admits both frames (the limit check
reserves only `kHexEntryLength + 2` bytes, ignoring the two `0x` bytes), 37
characters are produced, and the terminating NUL is written at offset 37 —
one byte beyond the provided size. -/
theorem c4_counterexample :
    ¬ ((StringifyToHex { frames := fun _ => 1, num_frames := 2 } 37
        { noFix := false, hex0x := true }).length + 1 ≤ 37) := by
  decide

theorem c7_witness :
    Symbolize
        (fun a => if a = 100 then some "CouldNotCollectStackTraceBecauseInsideLibDl"
                  else none)
        (Collect false 100 emptyStackTrace emptyStackTrace)
      = "    @ " ++ ptrField 101 ++ "  "
          ++ "CouldNotCollectStackTraceBecauseInsideLibDl" ++ "\n" :=
  (c7_collect_unsafe_sentinel emptyStackTrace emptyStackTrace 100
    (fun a => if a = 100 then some "CouldNotCollectStackTraceBecauseInsideLibDl"
              else none)
    "CouldNotCollectStackTraceBecauseInsideLibDl" (by simp)).2.2

/-- Helper: value of one lowercase hex digit character. -/
theorem hexVal_digitChar (d : Nat) (h : d < 16) : hexVal (Nat.digitChar d) = d := by
  interval_cases d <;> rfl

/-- Helper: parsing the fixed-width hex rendering recovers the value modulo
the width. -/
theorem parseHex_hexDigits (k : Nat) : ∀ n, parseHex (hexDigits k n) = n % 16 ^ k := by
  induction k with
  | zero => intro n; simp [parseHex, hexDigits, Nat.mod_one]
  | succ k ih =>
    intro n
    unfold hexDigits parseHex
    rw [List.foldl_append]
    simp only [List.foldl_cons, List.foldl_nil]
    rw [show List.foldl (fun acc c => 16 * acc + hexVal c) 0 (hexDigits k (n / 16))
          = parseHex (hexDigits k (n / 16)) from rfl]
    rw [ih (n / 16), hexVal_digitChar (n % 16) (Nat.mod_lt _ (by norm_num))]
    rw [pow_succ, mul_comm ((16 : Nat) ^ k) 16, Nat.mod_mul]
    omega

/-- Helper: parsing the 16-digit hex rendering of a 64-bit value recovers
it exactly. -/
theorem parseHex_fastHex64 (n : Nat) (h : n < 2 ^ 64) : parseHex (fastHex64 n) = n := by
  unfold fastHex64
  rw [parseHex_hexDigits]
  exact Nat.mod_eq_of_lt (by rw [show (16 : Nat) ^ 16 = 2 ^ 64 by norm_num]; exact h)

/-- Words joined with single leading spaces (the shape the `StringifyToHex`
loop produces after its first field). -/
def spaceJoin : List (List Char) → List Char
  | [] => []
  | w :: ws => ' ' :: (w ++ spaceJoin ws)

/-- Words joined with single separating spaces. -/
def spaceSeparated : List (List Char) → List Char
  | [] => []
  | w :: ws => w ++ spaceJoin ws

/-- Helper: a chunk for frame number 0 without `HEX_0X_PREFIX` is the bare
16-digit field. -/
theorem stringifyChunk_zero (fl : HexFlags) (hfl : fl.hex0x = false) (f : Nat) :
    stringifyChunk fl 0 f = fastHex64 (printedAddr fl f) := by
  simp [stringifyChunk, hfl]

/-- Helper: a chunk for a later frame without `HEX_0X_PREFIX` is a space and
the bare 16-digit field. -/
theorem stringifyChunk_pos (fl : HexFlags) (hfl : fl.hex0x = false) (i f : Nat)
    (hi : i ≠ 0) : stringifyChunk fl i f = ' ' :: fastHex64 (printedAddr fl f) := by
  simp [stringifyChunk, hfl, hi]

/-- Helper: when the buffer is large enough, the tail of the `StringifyToHex`
loop (frame number at least 1) renders every remaining frame, each preceded by
one space. -/
theorem stringifyLoop_spaceJoin (fl : HexFlags) (hfl : fl.hex0x = false)
    (size : Nat) :
    ∀ (fr : List Nat) (i dst : Nat), i ≠ 0 → dst + 17 * fr.length + 18 ≤ size →
      stringifyLoop fl size fr i dst
        = spaceJoin (fr.map (fun f => fastHex64 (printedAddr fl f))) := by
  intro fr
  induction fr with
  | nil => intro i dst _ _; rfl
  | cons f rest ih =>
    intro i dst hi hsz
    simp only [List.length_cons] at hsz
    have hcl : (stringifyChunk fl i f).length = 17 := by
      rw [stringifyChunk_pos fl hfl i f hi]
      simp [fastHex64, hexDigits_length]
    unfold stringifyLoop
    rw [if_pos (by simp only [kHexEntryLength]; omega)]
    rw [hcl, stringifyChunk_pos fl hfl i f hi]
    rw [ih (i + 1) (dst + 17) (by omega) (by omega)]
    simp [spaceJoin]

/-- Helper: when the buffer is large enough (`17` bytes per frame plus the
`18`-byte reservation), `StringifyToHex` without `HEX_0X_PREFIX` renders the
whole defined prefix as space-separated 16-digit fields. -/
theorem stringifyToHex_spaceSeparated (st : StackTrace) (size : Nat)
    (fl : HexFlags) (hfl : fl.hex0x = false)
    (hsz : 17 * st.num_frames + 18 ≤ size) :
    StringifyToHex st size fl
      = spaceSeparated ((definedRange st).map
          (fun f => fastHex64 (printedAddr fl f))) := by
  have hlen : (definedRange st).length = st.num_frames := by simp [definedRange]
  unfold StringifyToHex
  rcases hfr : definedRange st with _ | ⟨f, rest⟩
  · rfl
  · rw [hfr] at hlen
    simp only [List.length_cons] at hlen
    have hcl : (stringifyChunk fl 0 f).length = 16 := by
      rw [stringifyChunk_zero fl hfl f]
      simp [fastHex64, hexDigits_length]
    unfold stringifyLoop
    rw [if_pos (by simp only [kHexEntryLength]; omega)]
    rw [hcl, stringifyChunk_zero fl hfl f]
    rw [stringifyLoop_spaceJoin fl hfl size rest 1 16 one_ne_zero (by omega)]
    simp [spaceSeparated]

/-- C8: with `NO_FIX_CALLER_ADDRESSES` unset (and no `0x` prefix), the output
of `StringifyToHex` is exactly the space-separated 16-hex-digit fields of the
printed addresses, every non-zero frame is printed as `address - 1` while zero
frames are printed unchanged — so parsing field `i` recovers
`frames[i] - 1` — and `Symbolize` resolves `address - 1` for every non-zero
frame. -/
theorem c8_address_correction (st : StackTrace) (size : Nat)
    (h64 : ∀ a ∈ definedRange st, a < 2 ^ 64)
    (hsz : 17 * st.num_frames + 18 ≤ size) :
    StringifyToHex st size { noFix := false, hex0x := false }
      = spaceSeparated ((definedRange st).map
          (fun a => fastHex64 (printedAddr { noFix := false, hex0x := false } a)))
    ∧ (definedRange st).map
        (fun a => parseHex (fastHex64 (printedAddr { noFix := false, hex0x := false } a)))
      = (definedRange st).map (fun a => if a = 0 then 0 else a - 1)
    ∧ ∀ (symb : Nat → Option String) (pc : Nat) (s : String), pc ≠ 0 →
        symb (pc - 1) = some s →
        symbolizeLine symb pc = "    @ " ++ ptrField pc ++ "  " ++ s ++ "\n" := by
  refine ⟨stringifyToHex_spaceSeparated st size _ rfl hsz, ?_, ?_⟩
  · apply List.map_congr_left
    intro a ha
    have h64a : a < 2 ^ 64 := h64 a ha
    unfold printedAddr
    rcases Nat.eq_zero_or_pos a with ha0 | hapos
    · subst ha0
      rw [if_neg (by simp)]
      rw [parseHex_fastHex64 0 (by norm_num)]
      rfl
    · rw [if_pos ⟨hapos, rfl⟩]
      rw [parseHex_fastHex64 (a - 1) (by omega)]
      rw [if_neg (by omega)]
  · intro symb pc s hpc hs
    unfold symbolizeLine
    rw [if_pos hpc, hs]
    rfl

theorem c8_witness :
    StringifyToHex { frames := fun _ => 2, num_frames := 1 } 40
        { noFix := false, hex0x := false }
      = spaceSeparated
          ((definedRange { frames := fun _ => 2, num_frames := 1 }).map
            (fun a => fastHex64 (printedAddr { noFix := false, hex0x := false } a))) :=
  (c8_address_correction { frames := fun _ => 2, num_frames := 1 } 40
    (by intro a ha; simp [definedRange] at ha; omega)
    (by decide)).1

/-- Helper: a snapshot entry whose final status is not OK was never written
by its target's handler: its stack still has `num_frames = 0`. -/
theorem runOneThread_failed_empty (installed : Bool) (o : ThreadObs)
    (hpos : 0 < o.tid) :
    (runOneThread installed o).status ≠ Status.ok →
    (runOneThread installed o).stack.num_frames = 0 := by
  obtain ⟨tid, dOk, hRan, coll⟩ := o
  have hpos' : 0 < tid := hpos
  have hne : ¬ (kDumpStarted = tid) := by unfold kDumpStarted; omega
  intro hfail
  cases installed with
  | false => rfl
  | true =>
    cases dOk with
    | false => rfl
    | true =>
      cases hRan with
      | false =>
        unfold runOneThread
        simp [TriggerAsync, HandleStackTraceSignal, AwaitCollection, RevokeSigData,
          emptyStackTrace]
      | true =>
        exfalso
        apply hfail
        show (runOneThread true ⟨tid, true, true, coll⟩).status = Status.ok
        unfold runOneThread
        simp [TriggerAsync, HandleStackTraceSignal, AwaitCollection, RevokeSigData, hne]

/-- C9: with no debugger attached and thread enumeration succeeding, the
snapshot returns OK no matter how many per-thread collections fail (even all
of them); each per-thread failure is recorded in that thread's own entry;
`num_failed_` equals the number of entries whose status is not OK; and every
failed entry's stack has `num_frames = 0`. -/
theorem c9_snapshot_failures (installed : Bool) (obs : List ThreadObs)
    (hpos : ∀ o ∈ obs, 0 < o.tid) :
    (SnapshotAllStacks false true installed obs).1 = Status.ok
    ∧ (SnapshotAllStacks false true installed obs).2.2
        = (SnapshotAllStacks false true installed obs).2.1.countP
            (fun e => decide (¬ e.status = Status.ok))
    ∧ ∀ e ∈ (SnapshotAllStacks false true installed obs).2.1,
        e.status ≠ Status.ok → e.stack.num_frames = 0 := by
  have hsnap : SnapshotAllStacks false true installed obs
      = (Status.ok,
         (obs.map (runOneThread installed)).mergeSort
           (fun a b => ! LessThan b.stack a.stack),
         (obs.map (runOneThread installed)).countP
           (fun e => decide (¬ e.status = Status.ok))) := rfl
  rw [hsnap]
  refine ⟨rfl, ?_, ?_⟩
  · exact ((List.mergeSort_perm _ _).countP_eq _).symm
  · intro e he hfail
    have he' : e ∈ obs.map (runOneThread installed) :=
      (List.mergeSort_perm _ _).mem_iff.mp he
    obtain ⟨o, ho, rfl⟩ := List.mem_map.mp he'
    exact runOneThread_failed_empty installed o (hpos o ho) hfail

theorem c9_witness :
    (SnapshotAllStacks false true true
        [{ tid := 5, deliveryOk := true, handlerRan := true,
           collected := { frames := fun _ => 3, num_frames := 1 } },
         { tid := 6, deliveryOk := true, handlerRan := false,
           collected := emptyStackTrace }]).1 = Status.ok :=
  (c9_snapshot_failures true
    [{ tid := 5, deliveryOk := true, handlerRan := true,
       collected := { frames := fun _ => 3, num_frames := 1 } },
     { tid := 6, deliveryOk := true, handlerRan := false,
       collected := emptyStackTrace }]
    (by
      intro o ho
      simp only [List.mem_cons, List.not_mem_nil, or_false] at ho
      rcases ho with rfl | rfl <;> decide)).1

end KuduDebug
